import Mathlib

/-!
Verification of the tech-blog-portfolio backend (Express + Prisma).
Shallow embedding of the request handlers in `src/controllers` and
`src/middleware/auth.ts`: the database is a list of records, each handler is a
pure function from (database, request) to (response, database).
-/

namespace Blog

/-! ## JavaScript string primitives -/

/-- The ASCII whitespace characters matched by the JS regex class `\s`
(space, tab, line feed, vertical tab, form feed, carriage return). -/
def isJsSpace (c : Char) : Bool :=
  c = ' ' || c = '\t' || c = '\n' || c = '\x0b' || c = '\x0c' || c = '\r'

/-- `String.prototype.trim`: drop whitespace from both ends. -/
def jsTrimList (l : List Char) : List Char :=
  ((l.dropWhile isJsSpace).reverse.dropWhile isJsSpace).reverse

/-- Decimal digits of a numeral prefix, folded into a number. -/
def digitsVal (ds : List Char) : Nat :=
  ds.foldl (fun acc c => acc * 10 + (c.toNat - 48)) 0

/-- The maximal leading run of decimal digits, or `none` if there is none. -/
def leadingNumeral (cs : List Char) : Option Nat :=
  let ds := cs.takeWhile Char.isDigit
  if ds.isEmpty then none else some (digitsVal ds)

/-- JS `parseInt(s)` on base-10 input: skip leading whitespace, read an
optional sign and then the maximal digit run; `none` models `NaN`.
(The legacy `0x` hexadecimal prefix is not exercised by any route modelled
here: such an input would still parse to a number and behave as any other
numeric id.) -/
def parseIntJs (s : String) : Option Int :=
  match s.toList.dropWhile isJsSpace with
  | '-' :: rest => (leadingNumeral rest).map (fun n => -(n : Int))
  | '+' :: rest => (leadingNumeral rest).map (fun n => (n : Int))
  | cs => (leadingNumeral cs).map (fun n => (n : Int))

/-- `String.prototype.toLowerCase` (ASCII range). -/
def lowerStr (s : String) : String :=
  String.mk (s.toList.map Char.toLower)

/-- JS `split(' ')`: cut at every single space, keeping empty pieces. -/
def splitOnSpace : List Char → List (List Char)
  | [] => [[]]
  | c :: cs =>
    match splitOnSpace cs, c == ' ' with
    | r, true => [] :: r
    | [], false => [[c]]
    | h :: t, false => (c :: h) :: t

/-- Case-insensitive substring test, modelling Prisma
`contains, mode: 'insensitive'`. -/
def containsCI (hay pat : String) : Bool :=
  decide (pat.toList.map Char.toLower <:+: hay.toList.map Char.toLower)

/-- JS truthiness of an optional string (`undefined` and `""` are falsy). -/
def strTruthy : Option String → Bool
  | none => false
  | some s => !(s = "")

/-! ## Slug generation

Both `createArticle` and `createProject` derive a slug from the title by
lowercasing, deleting every character outside the class `[a-z0-9\s-]`,
replacing each whitespace run (regex `\s+`) with `-`, collapsing hyphen runs
(regex `-+` in the article controller, `--+` in the project controller: the
same effect, every maximal hyphen run becomes one hyphen), then `.trim()`. -/

/-- The characters kept by the deletion step (class `[a-z0-9\s-]`). -/
def isSlugChar (c : Char) : Bool :=
  ('a' ≤ c && c ≤ 'z') || ('0' ≤ c && c ≤ '9') || isJsSpace c || c = '-'

/-- The whitespace step (regex `\s+` to `-`): each maximal whitespace run
becomes one hyphen. -/
def squashWs : List Char → List Char
  | [] => []
  | [c] => if isJsSpace c then ['-'] else [c]
  | c :: d :: cs =>
    if isJsSpace c && isJsSpace d then squashWs (d :: cs)
    else (if isJsSpace c then '-' else c) :: squashWs (d :: cs)

/-- The hyphen-collapsing step (regex `-+` for articles, `--+` for projects,
replacement `-`): each maximal hyphen run becomes a single hyphen. -/
def collapseHyphens : List Char → List Char
  | [] => []
  | [c] => [c]
  | c :: d :: cs =>
    if c = '-' && d = '-' then collapseHyphens (d :: cs)
    else c :: collapseHyphens (d :: cs)

/-- The slug transform from `createArticle` / `createProject` /
`updateProject`, step by step as in the source. -/
def slugify (title : String) : String :=
  String.mk (jsTrimList (collapseHyphens (squashWs
    ((title.toList.map Char.toLower).filter isSlugChar))))

/-- Modelled from the spec's words for the claim about slugs: same pipeline
but where the final trim removes leading and trailing separators (hyphens),
so that no slug starts or ends with a hyphen. -/
def slugSpecTrimmed (title : String) : String :=
  String.mk ((((collapseHyphens (squashWs
    ((title.toList.map Char.toLower).filter isSlugChar))).dropWhile
      (fun c => c = '-')).reverse.dropWhile (fun c => c = '-')).reverse)

/-- Modelled from the spec's words, amended: lowercase, strip characters
other than `[a-z0-9\s-]`, each whitespace run to a hyphen, collapse hyphen
runs; no trimming of leading or trailing hyphens occurs. -/
def slugSpecAmended (title : String) : String :=
  String.mk (collapseHyphens (squashWs
    ((title.toList.map Char.toLower).filter isSlugChar)))

/-! Facts about the slug pipeline: after `squashWs` no whitespace remains,
so the final `.trim()` is the identity. -/

theorem squashWs_no_space (l : List Char) :
    ∀ c ∈ squashWs l, isJsSpace c = false := by
  induction l with
  | nil => intro c hc; simp [squashWs] at hc
  | cons a t ih =>
    match t with
    | [] =>
      intro c hc
      by_cases ha : isJsSpace a
      · simp [squashWs, ha] at hc; subst hc; decide
      · simp [squashWs, ha] at hc; subst hc; simpa using ha
    | b :: u =>
      intro c hc
      by_cases ha : isJsSpace a
      · by_cases hb : isJsSpace b
        · rw [squashWs, if_pos (by simp [ha, hb])] at hc
          exact ih c hc
        · rw [squashWs, if_neg (by simp [hb]), if_pos ha] at hc
          rcases List.mem_cons.mp hc with h | h
          · subst h; decide
          · exact ih c h
      · rw [squashWs, if_neg (by simp [ha]), if_neg ha] at hc
        rcases List.mem_cons.mp hc with h | h
        · subst h; simpa using ha
        · exact ih c h

theorem collapseHyphens_subset (l : List Char) :
    ∀ c ∈ collapseHyphens l, c ∈ l := by
  induction l with
  | nil => intro c hc; simp [collapseHyphens] at hc
  | cons a t ih =>
    match t with
    | [] => intro c hc; simpa [collapseHyphens] using hc
    | b :: u =>
      intro c hc
      by_cases hab : a = '-' && b = '-'
      · rw [collapseHyphens, if_pos hab] at hc
        exact List.mem_cons_of_mem a (ih c hc)
      · rw [collapseHyphens, if_neg hab] at hc
        rcases List.mem_cons.mp hc with h | h
        · exact h ▸ List.mem_cons_self a _
        · exact List.mem_cons_of_mem a (ih c h)

theorem dropWhile_eq_self_of_none {p : Char → Bool} {l : List Char}
    (h : ∀ c ∈ l, p c = false) : l.dropWhile p = l := by
  cases l with
  | nil => rfl
  | cons a t => simp [List.dropWhile, h a (List.mem_cons_self a t)]

theorem jsTrimList_eq_self {l : List Char}
    (h : ∀ c ∈ l, isJsSpace c = false) : jsTrimList l = l := by
  unfold jsTrimList
  rw [dropWhile_eq_self_of_none h,
    dropWhile_eq_self_of_none (fun c hc => h c (List.mem_reverse.mp hc)),
    List.reverse_reverse]

/-- C3 counterexample: the slug of the title `"Hello World "` (trailing
space) is `"hello-world-"`, with a trailing hyphen, and differs from the
transform the claim describes, which trims trailing separators. -/
theorem slugify_trailing_hyphen :
    slugify "Hello World " = "hello-world-" ∧
    slugSpecTrimmed "Hello World " = "hello-world" ∧
    slugify "Hello World " ≠ slugSpecTrimmed "Hello World " := by
  refine ⟨by decide, by decide, by decide⟩

/-- C3 (amended): the slug computed by article and project creation equals
the transform: lowercase the title, strip characters outside
`[a-z0-9\s-]`, replace each whitespace run with a hyphen, collapse hyphen
runs to one — with NO trimming of leading or trailing hyphens: the final
`.trim()` only removes whitespace, and none remains at that point, so a
title with leading or trailing whitespace yields a slug with a leading or
trailing hyphen. (The article controller's hyphen-run regex `-+` and the
project controller's `--+` perform the same collapse.) -/
theorem slugify_eq_untrimmed (title : String) :
    slugify title = slugSpecAmended title := by
  unfold slugify slugSpecAmended
  have h : ∀ c ∈ collapseHyphens (squashWs
      ((title.toList.map Char.toLower).filter isSlugChar)),
      isJsSpace c = false :=
    fun c hc => squashWs_no_space _ c (collapseHyphens_subset _ c hc)
  rw [jsTrimList_eq_self h]

/-! ## Users and authentication

Data model from `prisma/schema.prisma` (`model User`, `enum Role`) and the
handlers in `src/controllers/userController.ts` and
`src/middleware/auth.ts`.  Timestamps are omitted; the users table is a
list in insertion order (Prisma `findFirst` without `orderBy` is modelled
as first match in that order). -/

inductive Role where
  | USER
  | ADMIN
  | AUTHOR
deriving DecidableEq, Repr

structure User where
  id : Nat
  username : String
  email : String
  passwordHash : String
  firstName : Option String
  lastName : Option String
  bio : Option String
  avatar : Option String
  role : Role
  isActive : Bool
deriving DecidableEq, Repr

/-- The `select` clause used by `register` / `getProfile` and the
`userWithoutPassword` rest-spread in `login`: every User field except
`passwordHash`. -/
structure PublicUser where
  id : Nat
  username : String
  email : String
  firstName : Option String
  lastName : Option String
  bio : Option String
  avatar : Option String
  role : Role
  isActive : Bool
deriving DecidableEq, Repr

def User.toPublic (u : User) : PublicUser :=
  ⟨u.id, u.username, u.email, u.firstName, u.lastName, u.bio, u.avatar,
    u.role, u.isActive⟩

/-- The JWT payload `{userId, username, role}` signed by register/login and
recovered by `jwt.verify`; also the shape of `req.user`. -/
structure JwtPayload where
  userId : Nat
  username : String
  role : Role
deriving DecidableEq, Repr

/-! ### Token guard middleware (`authenticateToken`) -/

/-- `authHeader && authHeader.split(' ')[1]` followed by the `if (!token)`
falsiness test: the token is the second space-separated component of the
Authorization header, and an absent component or an empty string counts as
no token. -/
def extractBearer (authHeader : Option String) : Option String :=
  match authHeader with
  | none => none
  | some h =>
    match (splitOnSpace h.toList).get? 1 with
    | none => none
    | some t => if t.isEmpty then none else some (String.mk t)

/-- Outcome of a middleware run: either a terminal JSON error response
(status, error) with `next()` never called, or `next()` called with
`req.user` populated. -/
inductive AuthResult where
  | reject (status : Nat) (error : String)
  | proceed (ctx : JwtPayload)
deriving DecidableEq, Repr

/-- `authenticateToken` from `src/middleware/auth.ts`.  `verify` stands for
`jwt.verify` with the server secret (`none` models a thrown
`JsonWebTokenError` / `TokenExpiredError`, caught by the surrounding
`try` / `catch`); `users` is the Users table queried by
`prisma.user.findUnique({ where: { id: decoded.userId } })`. -/
def authenticateToken (verify : String → Option JwtPayload)
    (users : List User) (authHeader : Option String) : AuthResult :=
  match extractBearer authHeader with
  | none => .reject 401 "Access token required"
  | some token =>
    match verify token with
    | none => .reject 403 "Invalid or expired token"
    | some decoded =>
      match users.find? (fun u => u.id == decoded.userId) with
      | none => .reject 401 "Invalid or inactive user"
      | some user =>
        if user.isActive then
          .proceed ⟨user.id, user.username, user.role⟩
        else
          .reject 401 "Invalid or inactive user"

/-! ### Login (`login` in `userController.ts`) -/

structure LoginRequest where
  username : String
  password : String
deriving DecidableEq, Repr

/-- Outcome of a login: 200 with the hash-stripped user and a token, or an
error response. -/
inductive LoginResult where
  | ok (user : PublicUser) (token : String)
  | err (status : Nat) (error : String)
deriving DecidableEq, Repr

/-- The `findFirst` predicate of `login`:
`{ username: username.toLowerCase(), isActive: true }`. -/
def loginLookup (reqUsername : String) (u : User) : Bool :=
  u.username == lowerStr reqUsername && u.isActive

/-- `login` from `userController.ts`.  `checkPw pw hash` stands for
`bcrypt.compare(pw, hash)` and `sign` for `jwt.sign` of the payload with
the server secret and expiry. -/
def login (checkPw : String → String → Bool) (sign : JwtPayload → String)
    (users : List User) (req : LoginRequest) : LoginResult :=
  match users.find? (loginLookup req.username) with
  | none => .err 401 "Invalid credentials"
  | some user =>
    if checkPw req.password user.passwordHash then
      .ok user.toPublic (sign ⟨user.id, user.username, user.role⟩)
    else
      .err 401 "Invalid credentials"

/-! ### Registration (`register` in `userController.ts`) -/

/-- The registration request body.  The controller destructures only
`username, email, password, firstName, lastName, bio, avatar`; a `role` or
`isActive` property in the body is never read, so it is carried here to
state that it is ignored. -/
structure RegisterRequest where
  username : String
  email : String
  password : String
  firstName : Option String
  lastName : Option String
  bio : Option String
  avatar : Option String
  role : Option Role
  isActive : Option Bool
deriving DecidableEq, Repr

/-- JS `x || null` on an optional string field: an absent or empty string
becomes `null`. -/
def orNull : Option String → Option String
  | none => none
  | some s => if s = "" then none else some s

/-- The `findFirst` predicate of `register`:
`OR: [{username: username.toLowerCase()}, {email: email.toLowerCase()}]`. -/
def registerLookup (reqUsername reqEmail : String) (u : User) : Bool :=
  u.username == lowerStr reqUsername || u.email == lowerStr reqEmail

/-- Prisma autoincrement id for the next inserted row. -/
def nextId (users : List User) : Nat :=
  (users.map User.id).foldr max 0 + 1

/-- Outcome of a registration: 201 with the new table, the selected
(hash-free) record and a token, or a 400 conflict. -/
inductive RegisterResult where
  | created (users : List User) (user : PublicUser) (token : String)
  | conflict (status : Nat) (error : String)
deriving DecidableEq, Repr

/-- `register` from `userController.ts`.  `hash` stands for
`bcrypt.hash(password, 12)` and `sign` for `jwt.sign`. -/
def register (hash : String → String) (sign : JwtPayload → String)
    (users : List User) (req : RegisterRequest) : RegisterResult :=
  match users.find? (registerLookup req.username req.email) with
  | some existing =>
    .conflict 400
      (if existing.username == lowerStr req.username
        then "Username already exists"
        else "Email already exists")
  | none =>
    let newUser : User :=
      { id := nextId users
        username := lowerStr req.username
        email := lowerStr req.email
        passwordHash := hash req.password
        firstName := orNull req.firstName
        lastName := orNull req.lastName
        bio := orNull req.bio
        avatar := orNull req.avatar
        role := .USER
        isActive := true }
    .created (users ++ [newUser]) newUser.toPublic
      (sign ⟨newUser.id, newUser.username, newUser.role⟩)

/-! ### Fixtures for concrete witnesses -/

def aliceUser : User :=
  { id := 1
    username := "alice"
    email := "alice@x.com"
    passwordHash := "hashedpw"
    firstName := none
    lastName := none
    bio := none
    avatar := none
    role := .USER
    isActive := true }

/-- A fixed verifier accepting exactly the token `"tok"` as alice. -/
def verifyFix : String → Option JwtPayload :=
  fun t => if t = "tok" then some ⟨1, "alice", .USER⟩ else none

/-- C1: for every request through `authenticateToken`: no bearer token in
the Authorization header gives 401 "Access token required"; a token failing
verification gives 403 "Invalid or expired token"; a verified token whose
user id is missing from the Users table, or names an inactive user, gives
401 "Invalid or inactive user"; otherwise the request proceeds with
`req.user = {userId, username, role}` taken from the re-fetched user record
and no error response is sent. -/
theorem authenticateToken_cases (verify : String → Option JwtPayload)
    (users : List User) (header : Option String) :
    (extractBearer header = none →
      authenticateToken verify users header =
        .reject 401 "Access token required")
    ∧ (∀ t, extractBearer header = some t → verify t = none →
      authenticateToken verify users header =
        .reject 403 "Invalid or expired token")
    ∧ (∀ t p, extractBearer header = some t → verify t = some p →
      users.find? (fun u => u.id == p.userId) = none →
      authenticateToken verify users header =
        .reject 401 "Invalid or inactive user")
    ∧ (∀ t p u, extractBearer header = some t → verify t = some p →
      users.find? (fun v => v.id == p.userId) = some u → u.isActive = false →
      authenticateToken verify users header =
        .reject 401 "Invalid or inactive user")
    ∧ (∀ t p u, extractBearer header = some t → verify t = some p →
      users.find? (fun v => v.id == p.userId) = some u → u.isActive = true →
      authenticateToken verify users header =
        .proceed ⟨u.id, u.username, u.role⟩) := by
  refine ⟨?_, ?_, ?_, ?_, ?_⟩ <;> intros <;> simp [authenticateToken, *]

/-- C1 witness: with one active user, a valid token for her id proceeds
with the populated identity context. -/
theorem authenticateToken_cases_witness :
    authenticateToken verifyFix [aliceUser] (some "Bearer tok") =
      .proceed ⟨1, "alice", .USER⟩ :=
  (authenticateToken_cases verifyFix [aliceUser]
      (some "Bearer tok")).2.2.2.2 "tok" ⟨1, "alice", .USER⟩ aliceUser
    (by decide) (by decide) (by decide) (by decide)

/-- C4: every login failure — no active user with the (lowercased)
username, or a password that does not match the stored hash — produces the
one identical response, 401 with error "Invalid credentials"; the two
failure causes are indistinguishable to the caller. -/
theorem login_uniform_failure (checkPw : String → String → Bool)
    (sign : JwtPayload → String) (users : List User) (req : LoginRequest)
    (h : users.find? (loginLookup req.username) = none ∨
      ∃ u, users.find? (loginLookup req.username) = some u ∧
        checkPw req.password u.passwordHash = false) :
    login checkPw sign users req = .err 401 "Invalid credentials" := by
  rcases h with h | ⟨u, hu, hpw⟩ <;> simp [login, *]

/-- C4 witness: an unknown username and a wrong password against the same
table both yield exactly the 401 "Invalid credentials" response. -/
theorem login_uniform_failure_witness :
    login (fun _ _ => false) (fun _ => "tok") [aliceUser] ⟨"bob", "pw"⟩ =
      .err 401 "Invalid credentials" ∧
    login (fun _ _ => false) (fun _ => "tok") [aliceUser] ⟨"Alice", "pw"⟩ =
      .err 401 "Invalid credentials" :=
  ⟨login_uniform_failure _ _ _ _ (Or.inl (by decide)),
    login_uniform_failure _ _ _ _ (Or.inr ⟨aliceUser, by decide, rfl⟩)⟩

/-! ### Registration conflicts (C5) and forced role (C10) -/

/-- An existing user whose email is `bob@x.com` but whose username is not
`bob`; listed before `bobUser` in the table. -/
def emailClashUser : User :=
  { id := 1
    username := "carol"
    email := "bob@x.com"
    passwordHash := "h1"
    firstName := none
    lastName := none
    bio := none
    avatar := none
    role := .USER
    isActive := true }

/-- An existing user whose username is `bob`. -/
def bobUser : User :=
  { id := 2
    username := "bob"
    email := "bob2@x.com"
    passwordHash := "h2"
    firstName := none
    lastName := none
    bio := none
    avatar := none
    role := .USER
    isActive := true }

/-- A registration request colliding on username with `bobUser` and on
email with `emailClashUser`. -/
def bothClashReq : RegisterRequest :=
  { username := "Bob"
    email := "Bob@X.com"
    password := "pw"
    firstName := none
    lastName := none
    bio := none
    avatar := none
    role := none
    isActive := none }

/-- C5 counterexample: the request's username collides with `bobUser` and
its email with `emailClashUser`, two different existing users — yet the
reported conflict is "Email already exists", not the username message the
claim requires, because `findFirst` returns the earlier matching record
(`emailClashUser`), whose username differs from the requested one. -/
theorem register_both_clash_email_message :
    register (fun _ => "H") (fun _ => "T") [emailClashUser, bobUser]
        bothClashReq = .conflict 400 "Email already exists" ∧
    (∃ u ∈ [emailClashUser, bobUser], u.username = lowerStr "Bob") ∧
    (∃ u ∈ [emailClashUser, bobUser], u.email = lowerStr "Bob@X.com") := by
  refine ⟨by decide, ⟨bobUser, by decide, by decide⟩,
    ⟨emailClashUser, by decide, by decide⟩⟩

/-- C5 (amended): a registration whose username or email (compared against
the lowercased input) already belongs to an existing user returns 400, and
the message is decided by the FIRST matching record in table order:
"Username already exists" if that record's username equals the lowercased
requested username, otherwise "Email already exists".  In particular, when
username and email both collide with that same first record, the username
conflict wins; but when they collide with two different records, the email
message can be the one reported. -/
theorem register_conflict_first_match (hash : String → String)
    (sign : JwtPayload → String) (users : List User)
    (req : RegisterRequest) :
    (∀ u, users.find? (registerLookup req.username req.email) = some u →
      register hash sign users req =
        .conflict 400 (if u.username == lowerStr req.username
          then "Username already exists" else "Email already exists"))
    ∧ (∀ u, users.find? (registerLookup req.username req.email) = some u →
      u.username = lowerStr req.username →
      register hash sign users req =
        .conflict 400 "Username already exists") := by
  constructor
  · intro u hu
    simp [register, hu]
  · intro u hu hname
    simp [register, hu, hname]

/-- C5 witness: the amended rule applied to the two-user table: the first
matching record is `emailClashUser`, whose username differs from the
request's, so the email message is reported; and a duplicate-username-only
request against `[bobUser]` reports the username message. -/
theorem register_conflict_first_match_witness :
    register (fun _ => "H") (fun _ => "T") [emailClashUser, bobUser]
        bothClashReq = .conflict 400 "Email already exists" ∧
    register (fun _ => "H") (fun _ => "T") [bobUser]
        { bothClashReq with email := "fresh@x.com" } =
      .conflict 400 "Username already exists" := by
  constructor
  · have h := (register_conflict_first_match (fun _ => "H") (fun _ => "T")
      [emailClashUser, bobUser] bothClashReq).1 emailClashUser (by decide)
    simpa using h
  · exact (register_conflict_first_match (fun _ => "H") (fun _ => "T")
      [bobUser] { bothClashReq with email := "fresh@x.com" }).2 bobUser
      (by decide) (by decide)

/-- C10: every user record created through registration is stored with role
USER and isActive true, whatever `role` or `isActive` value the request
body carried (those properties are never read); and the 201 response's
user record is the `select`ed shape with no `passwordHash` field — the
projection `User.toPublic` is insensitive to the stored hash. -/
theorem register_forces_user_role (hash : String → String)
    (sign : JwtPayload → String) (users : List User)
    (req : RegisterRequest) :
    (∀ us pu tok, register hash sign users req = .created us pu tok →
      pu.role = Role.USER ∧ pu.isActive = true ∧
      ∃ nu : User, us = users ++ [nu] ∧ nu.role = Role.USER ∧
        nu.isActive = true ∧ pu = nu.toPublic)
    ∧ (∀ r b, register hash sign users
        { req with role := r, isActive := b } =
      register hash sign users req)
    ∧ (∀ (u : User) (h : String),
      ({ u with passwordHash := h } : User).toPublic = u.toPublic) := by
  refine ⟨?_, fun r b => rfl, fun u h => rfl⟩
  intro us pu tok h
  unfold register at h
  cases hfind : users.find? (registerLookup req.username req.email) with
  | some u => rw [hfind] at h; simp at h
  | none =>
    rw [hfind] at h
    simp only [RegisterResult.created.injEq] at h
    obtain ⟨hus, hpu, -⟩ := h
    exact ⟨by rw [← hpu]; rfl, by rw [← hpu]; rfl,
      ⟨_, hus.symm, rfl, rfl, hpu.symm⟩⟩

/-- C10 witness: a registration that asks for role ADMIN and isActive
false is created with role USER and isActive true anyway. -/
theorem register_forces_user_role_witness :
    ∃ pu tok, register (fun _ => "H") (fun _ => "T") []
        { bothClashReq with role := some .ADMIN, isActive := some false } =
      .created [⟨1, "bob", "bob@x.com", "H", none, none, none, none,
        .USER, true⟩] pu tok ∧
      pu.role = Role.USER ∧ pu.isActive = true := by
  refine ⟨⟨1, "bob", "bob@x.com", none, none, none, none, .USER, true⟩,
    "T", by decide, ?_⟩
  have h := (register_forces_user_role (fun _ => "H") (fun _ => "T") []
    { bothClashReq with role := some .ADMIN, isActive := some false }).1
    [⟨1, "bob", "bob@x.com", "H", none, none, none, none, .USER, true⟩]
    ⟨1, "bob", "bob@x.com", none, none, none, none, .USER, true⟩
    "T" (by decide)
  exact ⟨h.1, h.2.1⟩

/-! ## Articles

Data model from `prisma/schema.prisma` (`model Article`, `enum
ArticleStatus`) and the handlers in `src/controllers/articleController.ts`.
`createdAt` is an abstract tick used only for the `orderBy` of the list
endpoint; tag associations are the `ArticleTag` join rows
`(articleId, tagId)`. -/

inductive ArticleStatus where
  | DRAFT
  | PUBLISHED
  | ARCHIVED
deriving DecidableEq, Repr

structure Article where
  id : Nat
  title : String
  slug : String
  content : String
  excerpt : Option String
  categoryId : Nat
  authorId : Nat
  featured : Bool
  status : ArticleStatus
  viewCount : Nat
  createdAt : Nat
deriving DecidableEq, Repr

structure Tag where
  id : Nat
  name : String
  slug : String
deriving DecidableEq, Repr

structure ArticleDb where
  articles : List Article
  articleTags : List (Nat × Nat)
  tags : List Tag
deriving DecidableEq, Repr

/-! ### Shared list-endpoint machinery -/

/-- JS `parseInt(x) || d`: `NaN` and `0` fall back to the default. -/
def jsOrDefault (v : Option Int) (d : Int) : Int :=
  match v with
  | none => d
  | some n => if n = 0 then d else n

/-- `Math.ceil(a / b)` on integers (`b ≠ 0`): the ceiling of the exact
quotient, via `ceil x = -floor (-x)`.  (A zero `b` cannot reach the JSON
response in the modelled routes: article limits are defaulted away from 0
and the claims about project lists assume a positive limit.) -/
def jsCeilDiv (a b : Int) : Int :=
  -((-a).fdiv b)

/-- Insert into a list sorted by `key` descending (stable). -/
def insertDescBy {α : Type} (key : α → Nat) (a : α) : List α → List α
  | [] => [a]
  | b :: bs => if key b < key a then a :: b :: bs else b :: insertDescBy key a bs

/-- Stable sort by `key` descending, modelling Prisma
`orderBy: { createdAt: 'desc' }`. -/
def sortDescBy {α : Type} (key : α → Nat) : List α → List α
  | [] => []
  | a :: rest => insertDescBy key a (sortDescBy key rest)

structure Pagination where
  page : Int
  limit : Int
  total : Nat
  totalPages : Int
deriving DecidableEq, Repr

structure ListResult (α : Type) where
  data : List α
  pagination : Pagination
deriving DecidableEq, Repr

/-! ### `getAllArticles` -/

/-- The query string of a GET `/api/v1/articles` request (the fields of the
`ArticleQuery` type).  The handler reads only `page` and `limit`. -/
structure ArticleQuery where
  page : Option String
  limit : Option String
  search : Option String
  category : Option String
  tag : Option String
  author : Option String
  status : Option String
  featured : Option String
deriving DecidableEq, Repr

/-- `getAllArticles` from `articleController.ts`: `page`/`limit` with
defaults 1/10, an unfiltered `findMany` with skip/take ordered by
`createdAt` descending, and an unfiltered `count()`.  No query filter is
applied.  (Negative skip/take would be rejected by Prisma at runtime; the
claims below only concern non-negative pages and positive limits, where
`Int.toNat` is exact.) -/
def getAllArticles (articles : List Article) (q : ArticleQuery) :
    ListResult Article :=
  let page := jsOrDefault (q.page.bind parseIntJs) 1
  let limit := jsOrDefault (q.limit.bind parseIntJs) 10
  let skip := (page - 1) * limit
  { data := ((sortDescBy Article.createdAt articles).drop skip.toNat).take
      limit.toNat
    pagination :=
      { page := page
        limit := limit
        total := articles.length
        totalPages := jsCeilDiv articles.length limit } }

/-! ### `getArticleById` -/

inductive DetailResult (α : Type) where
  | ok (data : α)
  | err (status : Nat) (error : String)
deriving DecidableEq, Repr

/-- `prisma.article.update({ where: { id }, data: { viewCount: {
increment: 1 } } })`. -/
def incrementView (articles : List Article) (aid : Int) : List Article :=
  articles.map fun a =>
    if (a.id : Int) == aid then { a with viewCount := a.viewCount + 1 }
    else a

/-- `getArticleById` from `articleController.ts`: the `id` route param is
falsiness-checked, parsed with `parseInt`, the article fetched, and on a
hit its view counter incremented (the response carries the pre-increment
record).  Returns the response and the articles table after the call. -/
def getArticleById (articles : List Article) (idParam : Option String) :
    DetailResult Article × List Article :=
  match idParam with
  | none => (.err 400 "Article ID is required", articles)
  | some idStr =>
    if idStr = "" then (.err 400 "Article ID is required", articles)
    else
      match parseIntJs idStr with
      | none => (.err 400 "Invalid article ID", articles)
      | some aid =>
        match articles.find? (fun a => (a.id : Int) == aid) with
        | none => (.err 404 "Article not found", articles)
        | some a => (.ok a, incrementView articles aid)

/-- The articles table after `n` consecutive fetches of the same id. -/
def fetchArticleN (articles : List Article) (idParam : Option String) :
    Nat → List Article
  | 0 => articles
  | n + 1 => (getArticleById (fetchArticleN articles idParam n) idParam).2

/-! ### `createArticle` -/

/-- The body of a POST `/api/v1/articles` request (the
`CreateArticleRequest` type).  The controller destructures only `title,
content, excerpt, categoryId, featured`; `tagIds` and `status` are never
read. -/
structure CreateArticleBody where
  title : String
  content : String
  excerpt : Option String
  categoryId : Nat
  tagIds : Option (List Nat)
  featured : Option Bool
  status : Option ArticleStatus
deriving DecidableEq, Repr

def nextArticleId (articles : List Article) : Nat :=
  (articles.map Article.id).foldr max 0 + 1

/-- A 201 creation response: the created record plus its expanded `tags`
relation (the tag ids joined to it), or an error response. -/
inductive CreateArticleResult where
  | ok (status : Nat) (article : Article) (tags : List Nat)
  | err (status : Nat) (error : String)
deriving DecidableEq, Repr

/-- `createArticle` from `articleController.ts`: auth guard, slug
derivation and uniqueness check, then a create with `status: 'DRAFT'` and
no relation connects — the request's `tagIds` are never used.  `now` is
the insertion timestamp. -/
def createArticle (db : ArticleDb) (user : Option JwtPayload) (now : Nat)
    (body : CreateArticleBody) : CreateArticleResult × ArticleDb :=
  match user with
  | none => (.err 401 "Authentication required", db)
  | some u =>
    let slug := slugify body.title
    match db.articles.find? (fun a => a.slug == slug) with
    | some _ => (.err 400 "An article with this title already exists", db)
    | none =>
      let newArticle : Article :=
        { id := nextArticleId db.articles
          title := body.title
          slug := slug
          content := body.content
          excerpt := orNull body.excerpt
          categoryId := body.categoryId
          authorId := u.userId
          featured := body.featured.getD false
          status := .DRAFT
          viewCount := 0
          createdAt := now }
      (.ok 201 newArticle
        ((db.articleTags.filter (fun r => r.1 == newArticle.id)).map
          Prod.snd),
        { articles := db.articles ++ [newArticle]
          articleTags := db.articleTags
          tags := db.tags })

/-- One article matching the requested id keeps matching after any number
of view bumps: the bump never changes the id. -/
theorem find?_map_bump (articles : List Article) (aid : Int) (n : Nat)
    (hex : ∃ a ∈ articles, (a.id : Int) = aid) :
    ∃ b, (articles.map (fun a => if (a.id : Int) == aid
        then { a with viewCount := a.viewCount + n } else a)).find?
      (fun a => (a.id : Int) == aid) = some b := by
  apply Option.isSome_iff_exists.mp
  apply List.find?_isSome.mpr
  obtain ⟨a0, hmem, hid⟩ := hex
  refine ⟨if (a0.id : Int) == aid
    then { a0 with viewCount := a0.viewCount + n } else a0,
    List.mem_map_of_mem _ hmem, ?_⟩
  simp [hid]

/-- C7: with a numeric id that names an existing article, `n` consecutive
detail fetches leave the table equal to the original with exactly that
article's view counter raised by `n` (every other record untouched); a
non-numeric id (400) or an id matching no article (404) returns an error
and leaves the table unchanged, as does a missing or empty id param. -/
theorem getArticleById_view_counts (articles : List Article)
    (idStr : String) (aid : Int) :
    (parseIntJs idStr = some aid → (∃ a ∈ articles, (a.id : Int) = aid) →
      ∀ n, fetchArticleN articles (some idStr) n =
        articles.map (fun a => if (a.id : Int) == aid
          then { a with viewCount := a.viewCount + n } else a))
    ∧ (idStr ≠ "" → parseIntJs idStr = none →
      getArticleById articles (some idStr) =
        (.err 400 "Invalid article ID", articles))
    ∧ (parseIntJs idStr = some aid →
      articles.find? (fun a => (a.id : Int) == aid) = none →
      getArticleById articles (some idStr) =
        (.err 404 "Article not found", articles))
    ∧ getArticleById articles none =
        (.err 400 "Article ID is required", articles)
    ∧ getArticleById articles (some "") =
        (.err 400 "Article ID is required", articles) := by
  have hbranch : ∀ a : Article, (if (a.id : Int) == aid
      then { a with viewCount := a.viewCount + 0 } else a) = a := by
    intro a; cases a; split <;> rfl
  refine ⟨?_, ?_, ?_, rfl, rfl⟩
  · intro hparse hex n
    have hne : ¬ idStr = "" := by
      intro he; rw [he] at hparse
      exact Option.noConfusion ((rfl : parseIntJs "" = none).symm.trans hparse)
    induction n with
    | zero =>
      show articles = _
      rw [List.map_congr_left (fun a _ => hbranch a)]
      simp
    | succ n ih =>
      show (getArticleById (fetchArticleN articles (some idStr) n)
        (some idStr)).2 = _
      rw [ih]
      obtain ⟨b, hb⟩ := find?_map_bump articles aid n hex
      simp only [getArticleById, if_neg hne, hparse, hb]
      unfold incrementView
      rw [List.map_map]
      apply List.map_congr_left
      intro a _
      by_cases h : (a.id : Int) = aid <;>
        simp +arith [h, Article.mk.injEq]
  · intro hne hparse
    simp [getArticleById, hne, hparse]
  · intro hparse hfind
    have hne : ¬ idStr = "" := by
      intro he; rw [he] at hparse
      exact Option.noConfusion ((rfl : parseIntJs "" = none).symm.trans hparse)
    simp [getArticleById, hne, hparse, hfind]

/-- A one-article fixture table. -/
def articleFix : Article :=
  { id := 1
    title := "Hello World"
    slug := "hello-world"
    content := "body"
    excerpt := none
    categoryId := 1
    authorId := 1
    featured := false
    status := .PUBLISHED
    viewCount := 5
    createdAt := 10 }

/-- C7 witness: three fetches of id "1" raise the stored counter from 5 to
8; fetching the absent id "2" and the non-numeric id "x" change nothing. -/
theorem getArticleById_view_counts_witness :
    fetchArticleN [articleFix] (some "1") 3 =
      [{ articleFix with viewCount := 8 }] ∧
    getArticleById [articleFix] (some "2") =
      (.err 404 "Article not found", [articleFix]) ∧
    getArticleById [articleFix] (some "x") =
      (.err 400 "Invalid article ID", [articleFix]) := by
  refine ⟨?_, ?_, ?_⟩
  · have h := (getArticleById_view_counts [articleFix] "1" 1).1
      (by decide) ⟨articleFix, by decide, by decide⟩ 3
    simpa using h
  · exact (getArticleById_view_counts [articleFix] "2" 2).2.2.1
      (by decide) (by decide)
  · exact (getArticleById_view_counts [articleFix] "x" 1).2.1
      (by decide) (by decide)

/-! ## Projects

Data model from `prisma/schema.prisma` (`model Project`, `model
Technology`, `enum ProjectStatus`, join `ProjectTechnology`) and the
handlers in `src/controllers/projectController.ts`. -/

inductive ProjectStatus where
  | PLANNING
  | IN_PROGRESS
  | COMPLETED
  | ON_HOLD
deriving DecidableEq, Repr

structure Technology where
  id : Nat
  name : String
  slug : String
deriving DecidableEq, Repr

structure Project where
  id : Nat
  title : String
  slug : String
  description : String
  content : Option String
  imageUrl : Option String
  demoUrl : Option String
  githubUrl : Option String
  featured : Bool
  status : ProjectStatus
  authorId : Nat
  createdAt : Nat
deriving DecidableEq, Repr

/-- The projects side of the database: the Projects table, the
`ProjectTechnology` join rows `(projectId, technologyId)`, and the
Technologies table (used to resolve `connect` and the `technology.slug`
filter). -/
structure ProjectDb where
  projects : List Project
  projectTechnologies : List (Nat × Nat)
  technologies : List Technology
deriving DecidableEq, Repr

/-- The `technologies: { include: { technology: true } }` expansion for one
project: the ids joined to it, in join-table order. -/
def techsOf (db : ProjectDb) (pid : Nat) : List Nat :=
  (db.projectTechnologies.filter (fun r => r.1 == pid)).map Prod.snd

/-! ### `getAllProjects` -/

/-- The query string of a GET `/api/v1/projects` request (the
`ProjectQuery` type).  `status` is cast unchecked to `ProjectStatus` in the
source (`status as ProjectStatus`); it is modelled already parsed — an
invalid status string would make the Prisma query throw and is not
modelled. -/
structure ProjectQuery where
  page : Option String
  limit : Option String
  search : Option String
  technology : Option String
  status : Option ProjectStatus
  featured : Option String
deriving DecidableEq, Repr

/-- The `where` clause of `getAllProjects`: an `AND` of the four optional
filters.  `search` and `technology` are guarded by JS truthiness (absent or
empty string means no filter); `featured` by `!== undefined`, comparing
`featured === 'true'`.  A `null` project `content` never matches a
`contains` filter. -/
def projectMatches (db : ProjectDb) (q : ProjectQuery) (p : Project) :
    Bool :=
  (match q.search with
    | none => true
    | some s =>
      if s = "" then true
      else containsCI p.title s || containsCI p.description s ||
        (match p.content with
          | none => false
          | some c => containsCI c s)) &&
  (match q.technology with
    | none => true
    | some t =>
      if t = "" then true
      else db.projectTechnologies.any (fun r => r.1 == p.id &&
        (db.technologies.any (fun tech => tech.id == r.2 &&
          tech.slug == t)))) &&
  (match q.status with
    | none => true
    | some st => p.status == st) &&
  (match q.featured with
    | none => true
    | some f => p.featured == (f == "true"))

/-- `getAllProjects` from `projectController.ts`: `page` and `limit`
default to 1/10 before `parseInt`; the filtered `findMany`
(skip/take, ordered by `createdAt` descending) and the filtered `count`
run in one `$transaction`.  A `limit` that parses to `NaN` would make
Prisma throw (500); that path is modelled as an error result. -/
def getAllProjects (db : ProjectDb) (q : ProjectQuery) :
    Except (Nat × String) (ListResult Project) :=
  let pageParsed := parseIntJs ((q.page.getD "1"))
  let takeParsed := parseIntJs ((q.limit.getD "10"))
  match pageParsed, takeParsed with
  | some page, some take =>
    let skip := (page - 1) * take
    let filtered := db.projects.filter (projectMatches db q)
    .ok
      { data := ((sortDescBy Project.createdAt filtered).drop
          skip.toNat).take take.toNat
        pagination :=
          { page := page
            limit := take
            total := filtered.length
            totalPages := jsCeilDiv filtered.length take } }
  | _, _ => .error (500, "Failed to get projects")

/-! ### `createProject` -/

/-- The body of a POST `/api/v1/projects` request (the
`CreateProjectRequest` type). -/
structure CreateProjectBody where
  title : String
  description : String
  content : Option String
  technologyIds : Option (List Nat)
  featured : Option Bool
  status : Option ProjectStatus
  githubUrl : Option String
  demoUrl : Option String
  imageUrl : Option String
deriving DecidableEq, Repr

def nextProjectId (projects : List Project) : Nat :=
  (projects.map Project.id).foldr max 0 + 1

/-- A 201 creation response: the created record plus its expanded
`technologies` relation, or an error response. -/
inductive CreateProjectResult where
  | ok (status : Nat) (project : Project) (techs : List Nat)
  | err (status : Nat) (error : String)
deriving DecidableEq, Repr

/-- `createProject` from `projectController.ts`: auth guard, slug
derivation and uniqueness check, then a create that `connect`s each
supplied technology id (only when `technologyIds` is present and
non-empty).  A `connect` to a technology id that does not exist makes the
nested write throw; Prisma rolls the whole create back and the catch
answers 500 "Failed to create project". -/
def createProject (db : ProjectDb) (user : Option JwtPayload) (now : Nat)
    (body : CreateProjectBody) : CreateProjectResult × ProjectDb :=
  match user with
  | none => (.err 401 "Authentication required", db)
  | some u =>
    let slug := slugify body.title
    match db.projects.find? (fun p => p.slug == slug) with
    | some _ => (.err 400 "A project with this title already exists", db)
    | none =>
      let connectIds :=
        match body.technologyIds with
        | some l => if l.length > 0 then l else []
        | none => []
      if connectIds.all
          (fun tid => db.technologies.any (fun tech => tech.id == tid))
      then
        let newProject : Project :=
          { id := nextProjectId db.projects
            title := body.title
            slug := slug
            description := body.description
            content := orNull body.content
            imageUrl := orNull body.imageUrl
            demoUrl := orNull body.demoUrl
            githubUrl := orNull body.githubUrl
            featured := body.featured.getD false
            status := body.status.getD .PLANNING
            authorId := u.userId
            createdAt := now }
        let db' : ProjectDb :=
          { projects := db.projects ++ [newProject]
            projectTechnologies := db.projectTechnologies ++
              connectIds.map (fun tid => (newProject.id, tid))
            technologies := db.technologies }
        (.ok 201 newProject (techsOf db' newProject.id), db')
      else
        (.err 500 "Failed to create project", db)

/-! ### `updateProject` / `deleteProject` -/

/-- The body of a PUT `/api/v1/projects/:id` request (the
`UpdateProjectRequest` type): every field optional; `none` models an
absent (`undefined`) property.  (An explicit JSON `null` for a
non-nullable column would make Prisma throw and is not modelled.) -/
structure UpdateProjectBody where
  title : Option String
  description : Option String
  content : Option String
  technologyIds : Option (List Nat)
  featured : Option Bool
  status : Option ProjectStatus
  githubUrl : Option String
  demoUrl : Option String
  imageUrl : Option String
deriving DecidableEq, Repr

/-- An empty update body, to build requests that set single fields. -/
def emptyUpdateBody : UpdateProjectBody :=
  { title := none
    description := none
    content := none
    technologyIds := none
    featured := none
    status := none
    githubUrl := none
    demoUrl := none
    imageUrl := none }

/-- The record produced by the `prisma.project.update` data spread: each
`!== undefined` field overwrites when supplied; `title` only when truthy,
and then together with the freshly derived `slug`. -/
def applyProjectPatch (body : UpdateProjectBody) (slug : String)
    (p : Project) : Project :=
  { p with
    title := if strTruthy body.title then body.title.getD p.title
      else p.title
    slug := if strTruthy body.title then slug else p.slug
    description := body.description.getD p.description
    content := match body.content with
      | none => p.content
      | some c => some c
    featured := body.featured.getD p.featured
    status := body.status.getD p.status
    githubUrl := match body.githubUrl with
      | none => p.githubUrl
      | some s => some s
    demoUrl := match body.demoUrl with
      | none => p.demoUrl
      | some s => some s
    imageUrl := match body.imageUrl with
      | none => p.imageUrl
      | some s => some s }

inductive UpdateProjectResult where
  | ok (project : Project) (techs : List Nat)
  | err (status : Nat) (error : String)
deriving DecidableEq, Repr

/-- `updateProject` from `projectController.ts`: auth guard, id parse,
existence and ownership checks, fresh slug (with cross-record uniqueness
check) when a truthy title is supplied, then a single `update` whose data
spread patches only the supplied fields; a supplied `technologyIds`
replaces the join rows wholesale (`deleteMany: {}` then `create`).  An
unknown technology id makes the nested write throw: Prisma rolls back and
the catch answers 500 "Failed to update project". -/
def updateProject (db : ProjectDb) (user : Option JwtPayload)
    (idParam : String) (body : UpdateProjectBody) :
    UpdateProjectResult × ProjectDb :=
  match user with
  | none => (.err 401 "Authentication required", db)
  | some u =>
    match parseIntJs idParam with
    | none => (.err 400 "Invalid project ID", db)
    | some pid =>
      match db.projects.find? (fun p => (p.id : Int) == pid) with
      | none => (.err 404 "Project not found", db)
      | some existing =>
        if existing.authorId ≠ u.userId then
          (.err 403 "You can only update your own projects", db)
        else
          let slug := if strTruthy body.title
            then slugify (body.title.getD "") else existing.slug
          if strTruthy body.title &&
              (db.projects.any (fun p =>
                p.slug == slug && !((p.id : Int) == pid))) then
            (.err 400 "A project with this title already exists", db)
          else
            match body.technologyIds with
            | some l =>
              if l.all (fun tid =>
                  db.technologies.any (fun tech => tech.id == tid)) then
                let db' : ProjectDb :=
                  { projects := db.projects.map (fun p =>
                      if (p.id : Int) == pid
                      then applyProjectPatch body slug p else p)
                    projectTechnologies :=
                      (db.projectTechnologies.filter
                        (fun r => !(r.1 == existing.id))) ++
                      l.map (fun tid => (existing.id, tid))
                    technologies := db.technologies }
                (.ok (applyProjectPatch body slug existing)
                  (techsOf db' existing.id), db')
              else
                (.err 500 "Failed to update project", db)
            | none =>
              let db' : ProjectDb :=
                { projects := db.projects.map (fun p =>
                    if (p.id : Int) == pid
                    then applyProjectPatch body slug p else p)
                  projectTechnologies := db.projectTechnologies
                  technologies := db.technologies }
              (.ok (applyProjectPatch body slug existing)
                (techsOf db' existing.id), db')

inductive DeleteProjectResult where
  | ok (message : String)
  | err (status : Nat) (error : String)
deriving DecidableEq, Repr

/-- `deleteProject` from `projectController.ts`: auth guard, id parse,
existence and ownership checks, then a hard delete; the `ProjectTechnology`
join rows cascade with the project. -/
def deleteProject (db : ProjectDb) (user : Option JwtPayload)
    (idParam : String) : DeleteProjectResult × ProjectDb :=
  match user with
  | none => (.err 401 "Authentication required", db)
  | some u =>
    match parseIntJs idParam with
    | none => (.err 400 "Invalid project ID", db)
    | some pid =>
      match db.projects.find? (fun p => (p.id : Int) == pid) with
      | none => (.err 404 "Project not found", db)
      | some existing =>
        if existing.authorId ≠ u.userId then
          (.err 403 "You can only delete your own projects", db)
        else
          (.ok "Project deleted successfully",
            { projects := db.projects.filter
                (fun p => !((p.id : Int) == pid))
              projectTechnologies := db.projectTechnologies.filter
                (fun r => !(r.1 == existing.id))
              technologies := db.technologies })

/-! ### List-endpoint lemmas -/

/-- `jsCeilDiv` with a positive divisor is the ceiling of the exact
quotient: the least integer `n` with `a ≤ n * b`. -/
theorem jsCeilDiv_bounds (a : Nat) (b : Int) (hb : 0 < b) :
    (a : Int) ≤ jsCeilDiv a b * b ∧ (jsCeilDiv a b - 1) * b < (a : Int) := by
  unfold jsCeilDiv
  rw [Int.fdiv_eq_ediv _ (le_of_lt hb)]
  constructor
  · have h := Int.ediv_mul_le (-(a : Int)) (ne_of_gt hb)
    have hexp : -(-(a : Int) / b) * b = -(-(a : Int) / b * b) := by ring
    rw [hexp]
    linarith
  · have h := Int.lt_ediv_add_one_mul_self (-(a : Int)) hb
    have hexp : (-(-(a : Int) / b) - 1) * b = -((-(a : Int) / b + 1) * b) := by
      ring
    rw [hexp]
    linarith

theorem mem_insertDescBy {α : Type} (key : α → Nat) (a x : α)
    (l : List α) : x ∈ insertDescBy key a l ↔ x = a ∨ x ∈ l := by
  induction l with
  | nil => simp [insertDescBy]
  | cons b t ih =>
    simp only [insertDescBy]
    split
    · simp [List.mem_cons]
    · simp only [List.mem_cons, ih]
      tauto

theorem mem_sortDescBy {α : Type} (key : α → Nat) (x : α) (l : List α) :
    x ∈ sortDescBy key l ↔ x ∈ l := by
  induction l with
  | nil => simp [sortDescBy]
  | cons a t ih => simp [sortDescBy, mem_insertDescBy, ih, List.mem_cons]

/-- Every element of a list lies in the page-sized chunk its index selects:
chunk `i / tk` of size `tk` contains the element at index `i`. -/
theorem getElem_mem_chunk {α : Type} (l : List α) (i : Nat)
    (hi : i < l.length) (tk : Nat) (ht : 0 < tk) :
    l[i] ∈ (l.drop (i / tk * tk)).take tk := by
  have hmod : i % tk < tk := Nat.mod_lt _ ht
  have hsplit : i / tk * tk + i % tk = i := by
    rw [Nat.mul_comm]; exact Nat.div_add_mod i tk
  have hlen : i % tk < (l.drop (i / tk * tk)).length := by
    rw [List.length_drop]; omega
  have hdrop : (l.drop (i / tk * tk))[i % tk] = l[i] := by
    rw [List.getElem_drop]
    congr 1
  have hlen2 : i % tk < ((l.drop (i / tk * tk)).take tk).length := by
    rw [List.length_take]; exact lt_min hmod hlen
  have htake : ((l.drop (i / tk * tk)).take tk)[i % tk] =
      (l.drop (i / tk * tk))[i % tk] :=
    List.getElem_take _
  rw [← hdrop, ← htake]
  exact List.getElem_mem hlen2

/-! ### Project fixtures -/

def techReact : Technology := { id := 7, name := "React", slug := "react" }

def projAlpha : Project :=
  { id := 1
    title := "Alpha App"
    slug := "alpha-app"
    description := "first"
    content := none
    imageUrl := none
    demoUrl := none
    githubUrl := none
    featured := true
    status := .COMPLETED
    authorId := 1
    createdAt := 2 }

def projBeta : Project :=
  { id := 2
    title := "Beta Tool"
    slug := "beta-tool"
    description := "second"
    content := none
    imageUrl := none
    demoUrl := none
    githubUrl := none
    featured := false
    status := .PLANNING
    authorId := 2
    createdAt := 1 }

def projDbFix : ProjectDb :=
  { projects := [projAlpha, projBeta]
    projectTechnologies := [(1, 7)]
    technologies := [techReact] }

/-- A query with only the free-text filter `search=alpha`. -/
def searchQuery : ProjectQuery :=
  { page := none
    limit := none
    search := some "alpha"
    technology := none
    status := none
    featured := none }

/-- The response `getAllProjects projDbFix searchQuery` evaluates to. -/
def searchResult : ListResult Project :=
  { data := [projAlpha]
    pagination := { page := 1, limit := 10, total := 1, totalPages := 1 } }

/-! ### C6: list filtering -/

/-- C6 (amended): article list requests apply NO filters — the result is
identical whatever `search`/`category`/`tag`/`author`/`status`/`featured`
say, a page of all articles; project list requests do apply the filters:
every returned project satisfies the search (case-insensitive substring
over title/description/content), technology-slug, status and featured
filters, and every project satisfying them appears on some page of size
`take`. -/
theorem list_filter_semantics (articles : List Article)
    (aq : ArticleQuery) (db : ProjectDb) (q : ProjectQuery) :
    (∀ s c t a st f, getAllArticles articles
        { aq with
          search := s
          category := c
          tag := t
          author := a
          status := st
          featured := f } =
      getAllArticles articles aq)
    ∧ (∀ r, getAllProjects db q = .ok r →
      ∀ p ∈ r.data, projectMatches db q p = true)
    ∧ (∀ tk : Nat, 0 < tk → ∀ p ∈ db.projects,
      projectMatches db q p = true →
      ∃ k : Nat, p ∈ ((sortDescBy Project.createdAt
        (db.projects.filter (projectMatches db q))).drop (k * tk)).take
          tk) := by
  refine ⟨fun s c t a st f => rfl, ?_, ?_⟩
  · intro r hok p hp
    unfold getAllProjects at hok
    cases hpp : parseIntJs (q.page.getD "1") with
    | none => rw [hpp] at hok; cases hok
    | some page =>
      cases hlp : parseIntJs (q.limit.getD "10") with
      | none => rw [hpp, hlp] at hok; cases hok
      | some take =>
        rw [hpp, hlp] at hok
        simp only [Except.ok.injEq] at hok
        rw [← hok] at hp
        have h1 := List.take_subset _ _ hp
        have h2 := List.drop_subset _ _ h1
        exact List.of_mem_filter ((mem_sortDescBy _ _ _).mp h2)
  · intro tk ht p hmem hmatch
    have hsorted : p ∈ sortDescBy Project.createdAt
        (db.projects.filter (projectMatches db q)) :=
      (mem_sortDescBy _ _ _).mpr (List.mem_filter.mpr ⟨hmem, hmatch⟩)
    obtain ⟨i, hi, hget⟩ := List.getElem_of_mem hsorted
    exact ⟨i / tk, hget ▸ getElem_mem_chunk _ i hi tk ht⟩

/-- C6 witness: on a two-project table, `search=alpha` returns exactly the
matching project, and the theorem certifies the returned row matches the
filter while the unreturned one that matches appears on page 1. -/
theorem list_filter_semantics_witness :
    getAllProjects projDbFix searchQuery = .ok searchResult ∧
    projectMatches projDbFix searchQuery projAlpha = true ∧
    ∃ k : Nat, projAlpha ∈ ((sortDescBy Project.createdAt
      (projDbFix.projects.filter (projectMatches projDbFix
        searchQuery))).drop (k * 10)).take 10 := by
  refine ⟨rfl, ?_, ?_⟩
  · exact (list_filter_semantics [] ⟨none, none, none, none, none, none,
      none, none⟩ projDbFix searchQuery).2.1 searchResult rfl
      projAlpha (by decide)
  · exact (list_filter_semantics [] ⟨none, none, none, none, none, none,
      none, none⟩ projDbFix searchQuery).2.2 10 (by decide) projAlpha
      (by decide) (by decide)

/-! ### C8: pagination metadata -/

/-- `projectMatches` reads only the filter fields of the query, never
`page` or `limit`. -/
theorem projectMatches_page_irrel (db : ProjectDb) (q : ProjectQuery)
    (p1 l1 : Option String) :
    projectMatches db { q with page := p1, limit := l1 } =
      projectMatches db q := by
  funext p
  rfl

/-- C8: `pagination.total` equals the number of records matching the
applied filters whatever `page`/`limit` are — all articles for the
unfiltered article list, the filtered count for projects (computed in the
same transaction from the same `where`) — and, for a positive limit,
`totalPages` is the ceiling of `total / limit`: the least integer `n`
with `total ≤ n * limit`. -/
theorem pagination_meta (articles : List Article) (aq : ArticleQuery)
    (db : ProjectDb) (q : ProjectQuery) :
    ((getAllArticles articles aq).pagination.total = articles.length)
    ∧ (0 < (getAllArticles articles aq).pagination.limit →
      (articles.length : Int) ≤
        (getAllArticles articles aq).pagination.totalPages *
          (getAllArticles articles aq).pagination.limit ∧
      ((getAllArticles articles aq).pagination.totalPages - 1) *
        (getAllArticles articles aq).pagination.limit <
          (articles.length : Int))
    ∧ (∀ r, getAllProjects db q = .ok r →
      r.pagination.total =
        (db.projects.filter (projectMatches db q)).length ∧
      (0 < r.pagination.limit →
        (r.pagination.total : Int) ≤
          r.pagination.totalPages * r.pagination.limit ∧
        (r.pagination.totalPages - 1) * r.pagination.limit <
          (r.pagination.total : Int)))
    ∧ (∀ p1 l1 p2 l2 r1 r2,
      getAllProjects db { q with page := p1, limit := l1 } = .ok r1 →
      getAllProjects db { q with page := p2, limit := l2 } = .ok r2 →
      r1.pagination.total = r2.pagination.total) := by
  have hproj : ∀ (q' : ProjectQuery) r, getAllProjects db q' = .ok r →
      r.pagination.total =
        (db.projects.filter (projectMatches db q')).length ∧
      r.pagination.totalPages =
        jsCeilDiv (db.projects.filter (projectMatches db q')).length
          r.pagination.limit := by
    intro q' r hok
    unfold getAllProjects at hok
    cases hpp : parseIntJs (q'.page.getD "1") with
    | none => rw [hpp] at hok; cases hok
    | some page =>
      cases hlp : parseIntJs (q'.limit.getD "10") with
      | none => rw [hpp, hlp] at hok; cases hok
      | some take =>
        rw [hpp, hlp] at hok
        simp only [Except.ok.injEq] at hok
        rw [← hok]
        exact ⟨rfl, rfl⟩
  refine ⟨rfl, ?_, ?_, ?_⟩
  · intro hlim
    exact jsCeilDiv_bounds articles.length _ hlim
  · intro r hok
    obtain ⟨htot, hpages⟩ := hproj q r hok
    refine ⟨htot, fun hlim => ?_⟩
    rw [htot, hpages]
    exact jsCeilDiv_bounds _ _ hlim
  · intro p1 l1 p2 l2 r1 r2 h1 h2
    rw [(hproj _ r1 h1).1, (hproj _ r2 h2).1,
      projectMatches_page_irrel db q p1 l1,
      projectMatches_page_irrel db q p2 l2]

/-- C8 witness: the `search=alpha` query on the two-project table reports
`total = 1` (the filtered count, though `limit` is 10) and
`totalPages = 1 = ceil(1/10)` satisfying the ceiling bounds. -/
theorem pagination_meta_witness :
    searchResult.pagination.total =
      (projDbFix.projects.filter (projectMatches projDbFix
        searchQuery)).length ∧
    (searchResult.pagination.total : Int) ≤
      searchResult.pagination.totalPages *
        searchResult.pagination.limit ∧
    (searchResult.pagination.totalPages - 1) *
      searchResult.pagination.limit <
        (searchResult.pagination.total : Int) := by
  have h := (pagination_meta [] ⟨none, none, none, none, none, none,
    none, none⟩ projDbFix searchQuery).2.2.1 searchResult rfl
  exact ⟨h.1, h.2 (by decide)⟩

/-! ### C6 counterexample fixtures -/

def artAlpha : Article :=
  { id := 1
    title := "Alpha Post"
    slug := "alpha-post"
    content := "alpha content"
    excerpt := none
    categoryId := 1
    authorId := 1
    featured := true
    status := .PUBLISHED
    viewCount := 0
    createdAt := 2 }

def artBeta : Article :=
  { id := 2
    title := "Beta Post"
    slug := "beta-post"
    content := "beta content"
    excerpt := none
    categoryId := 2
    authorId := 2
    featured := false
    status := .DRAFT
    viewCount := 0
    createdAt := 1 }

/-- An article-list query carrying only `search=alpha`. -/
def searchAQ : ArticleQuery :=
  { page := none
    limit := none
    search := some "alpha"
    category := none
    tag := none
    author := none
    status := none
    featured := none }

/-- C6 counterexample: with `search=alpha` supplied, the article list still
returns `artBeta`, whose title, content and (absent) excerpt nowhere
contain "alpha" — the article handler applies no filter at all. -/
theorem getAllArticles_ignores_search :
    searchAQ.search = some "alpha" ∧
    artBeta ∈ (getAllArticles [artAlpha, artBeta] searchAQ).data ∧
    containsCI artBeta.title "alpha" = false ∧
    containsCI artBeta.content "alpha" = false ∧
    artBeta.excerpt = none := by
  refine ⟨rfl, by decide, by decide, by decide, rfl⟩

/-! ### C9: relation connects on create -/

def tagFix : Tag := { id := 1, name := "Intro", slug := "intro" }

def artDbFix : ArticleDb :=
  { articles := [], articleTags := [], tags := [tagFix] }

def createArtBody : CreateArticleBody :=
  { title := "Hello World"
    content := "body"
    excerpt := none
    categoryId := 1
    tagIds := some [1]
    featured := none
    status := none }

/-- The article that `createArticle artDbFix` produces for
`createArtBody`. -/
def createdArt : Article :=
  { id := 1
    title := "Hello World"
    slug := "hello-world"
    content := "body"
    excerpt := none
    categoryId := 1
    authorId := 1
    featured := false
    status := .DRAFT
    viewCount := 0
    createdAt := 5 }

/-- C9 counterexample: an authenticated create that supplies the existing
tag id 1 succeeds (201) — but the created article gets NO `ArticleTag`
join rows and its expanded tags relation is empty: `createArticle` never
reads `tagIds`. -/
theorem createArticle_ignores_tagIds :
    createArtBody.tagIds = some [1] ∧
    (∃ t ∈ artDbFix.tags, t.id = 1) ∧
    (createArticle artDbFix (some ⟨1, "alice", .USER⟩) 5
      createArtBody).1 = .ok 201 createdArt [] ∧
    (createArticle artDbFix (some ⟨1, "alice", .USER⟩) 5
      createArtBody).2.articleTags = [] := by
  refine ⟨rfl, ⟨tagFix, by decide, rfl⟩, by decide, by decide⟩

theorem mem_le_foldr_max (l : List Nat) (a : Nat) (h : a ∈ l) :
    a ≤ l.foldr max 0 := by
  induction l with
  | nil => cases h
  | cons b t ih =>
    rcases List.mem_cons.mp h with rfl | h
    · exact le_max_left _ _
    · exact le_trans (ih h) (le_max_right _ _)

/-- In a database whose join rows all reference stored projects, no join
row carries the id the next insert will take. -/
theorem join_ne_nextProjectId (db : ProjectDb)
    (hjoin : ∀ r ∈ db.projectTechnologies,
      ∃ p ∈ db.projects, r.1 = p.id) :
    ∀ r ∈ db.projectTechnologies, r.1 ≠ nextProjectId db.projects := by
  intro r hr
  obtain ⟨p, hp, hid⟩ := hjoin r hr
  have hle : p.id ≤ (db.projects.map Project.id).foldr max 0 :=
    mem_le_foldr_max _ _ (List.mem_map_of_mem _ hp)
  unfold nextProjectId
  omega

/-- Join rows freshly created for a project are exactly what its expanded
relation reports. -/
theorem techsOf_fresh (old : List (Nat × Nat)) (pid : Nat) (l : List Nat)
    (hold : ∀ r ∈ old, r.1 ≠ pid) :
    ((old ++ l.map (fun tid => (pid, tid))).filter
      (fun r => r.1 == pid)).map Prod.snd = l := by
  rw [List.filter_append]
  have h1 : old.filter (fun r => r.1 == pid) = [] := by
    rw [List.filter_eq_nil_iff]
    intro r hr
    simpa using hold r hr
  have h2 : (l.map (fun tid => (pid, tid))).filter
      (fun r => r.1 == pid) = l.map (fun tid => (pid, tid)) := by
    rw [List.filter_eq_self]
    intro r hr
    obtain ⟨tid, -, rfl⟩ := List.mem_map.mp hr
    simp
  rw [h1, h2, List.nil_append, List.map_map]
  simp

/-- C9 (amended): a create request's relation ids are honored for
projects but ignored for articles.  For projects: an authenticated create
with a fresh slug and existing technology ids `l` returns 201 with the
record and exactly `l` as its expanded relation, appending exactly the
join rows `(newId, tid)`.  For articles: `tagIds` never influences the
result and no `ArticleTag` join row is ever created. -/
theorem create_relation_connects (adb : ArticleDb)
    (user : Option JwtPayload) (now : Nat) (abody : CreateArticleBody)
    (db : ProjectDb) (u : JwtPayload) (body : CreateProjectBody)
    (l : List Nat) :
    (∀ x, createArticle adb user now { abody with tagIds := x } =
      createArticle adb user now abody)
    ∧ ((createArticle adb user now abody).2.articleTags =
      adb.articleTags)
    ∧ (db.projects.find? (fun p => p.slug == slugify body.title) = none →
      body.technologyIds = some l → l ≠ [] →
      l.all (fun tid => db.technologies.any (fun tech =>
        tech.id == tid)) = true →
      (∀ r ∈ db.projectTechnologies, ∃ p ∈ db.projects, r.1 = p.id) →
      ∃ np db', createProject db (some u) now body =
          (.ok 201 np (techsOf db' np.id), db') ∧
        np.id = nextProjectId db.projects ∧
        techsOf db' np.id = l ∧
        db'.projects = db.projects ++ [np] ∧
        db'.projectTechnologies = db.projectTechnologies ++
          l.map (fun tid => (np.id, tid))) := by
  refine ⟨fun x => rfl, ?_, ?_⟩
  · unfold createArticle
    cases user with
    | none => rfl
    | some u =>
      dsimp only
      split <;> rfl
  · intro hfind htech hnil hvalid hjoin
    have hlen : 0 < l.length := List.length_pos.mpr hnil
    unfold createProject
    dsimp only
    rw [hfind]
    dsimp only
    rw [htech]
    dsimp only
    rw [if_pos hlen, if_pos hvalid]
    refine ⟨_, _, rfl, rfl, ?_, rfl, rfl⟩
    exact techsOf_fresh _ _ _ (join_ne_nextProjectId db hjoin)

def createProjBody : CreateProjectBody :=
  { title := "Gamma Site"
    description := "third"
    content := none
    technologyIds := some [7]
    featured := none
    status := none
    githubUrl := none
    demoUrl := none
    imageUrl := none }

/-- C9 witness: creating a project on the two-project table while
supplying the existing technology id 7 appends exactly the join row
`(3, 7)` and reports `[7]` as the expanded relation at 201. -/
theorem create_relation_connects_witness :
    ∃ np db', createProject projDbFix (some ⟨1, "alice", .USER⟩) 9
        createProjBody = (.ok 201 np (techsOf db' np.id), db') ∧
      np.id = nextProjectId projDbFix.projects ∧
      techsOf db' np.id = [7] ∧
      db'.projects = projDbFix.projects ++ [np] ∧
      db'.projectTechnologies = projDbFix.projectTechnologies ++
        [7].map (fun tid => (np.id, tid)) :=
  (create_relation_connects artDbFix none 9 createArtBody projDbFix
      ⟨1, "alice", .USER⟩ createProjBody [7]).2.2 (by decide) rfl
    (by decide) (by decide) (by decide)

/-! ### C2: ownership and partial-update semantics -/

/-- Field-level reading of the `prisma.project.update` data spread: which
fields of the patched record changed, and to what. -/
theorem applyProjectPatch_fields (body : UpdateProjectBody)
    (slug : String) (p : Project) :
    (applyProjectPatch body slug p).id = p.id ∧
    (applyProjectPatch body slug p).authorId = p.authorId ∧
    (applyProjectPatch body slug p).createdAt = p.createdAt ∧
    (strTruthy body.title = false →
      (applyProjectPatch body slug p).title = p.title ∧
      (applyProjectPatch body slug p).slug = p.slug) ∧
    (∀ t, body.title = some t → t ≠ "" →
      (applyProjectPatch body slug p).title = t ∧
      (applyProjectPatch body slug p).slug = slug) ∧
    (body.description = none →
      (applyProjectPatch body slug p).description = p.description) ∧
    (∀ d, body.description = some d →
      (applyProjectPatch body slug p).description = d) ∧
    (body.content = none →
      (applyProjectPatch body slug p).content = p.content) ∧
    (∀ c, body.content = some c →
      (applyProjectPatch body slug p).content = some c) ∧
    (body.featured = none →
      (applyProjectPatch body slug p).featured = p.featured) ∧
    (∀ b, body.featured = some b →
      (applyProjectPatch body slug p).featured = b) ∧
    (body.status = none →
      (applyProjectPatch body slug p).status = p.status) ∧
    (∀ st, body.status = some st →
      (applyProjectPatch body slug p).status = st) ∧
    (body.githubUrl = none →
      (applyProjectPatch body slug p).githubUrl = p.githubUrl) ∧
    (∀ s, body.githubUrl = some s →
      (applyProjectPatch body slug p).githubUrl = some s) ∧
    (body.demoUrl = none →
      (applyProjectPatch body slug p).demoUrl = p.demoUrl) ∧
    (∀ s, body.demoUrl = some s →
      (applyProjectPatch body slug p).demoUrl = some s) ∧
    (body.imageUrl = none →
      (applyProjectPatch body slug p).imageUrl = p.imageUrl) ∧
    (∀ s, body.imageUrl = some s →
      (applyProjectPatch body slug p).imageUrl = some s) := by
  refine ⟨rfl, rfl, rfl, ?_, ?_, ?_, ?_, ?_, ?_, ?_, ?_, ?_, ?_, ?_,
    ?_, ?_, ?_, ?_, ?_⟩ <;>
    intros <;> simp_all [applyProjectPatch, strTruthy]

/-- C2 (amended): a project update or delete by an authenticated caller
who is not the record's author answers 403 with the respective message and
leaves the database unchanged.  An update by the owner (here: without a
`technologyIds` replacement, and with no slug conflict) patches exactly
the supplied body fields — except that supplying a (truthy) `title` also
rewrites the derived `slug` — and leaves every unsupplied field, every
other project, and all join rows untouched. -/
theorem project_ownership_and_patch (db : ProjectDb) (u : JwtPayload)
    (idParam : String) (body : UpdateProjectBody) (pid : Int)
    (existing : Project) :
    (parseIntJs idParam = some pid →
      db.projects.find? (fun p => (p.id : Int) == pid) = some existing →
      existing.authorId ≠ u.userId →
      updateProject db (some u) idParam body =
        (.err 403 "You can only update your own projects", db) ∧
      deleteProject db (some u) idParam =
        (.err 403 "You can only delete your own projects", db))
    ∧ (∀ slugU, slugU = (if strTruthy body.title
        then slugify (body.title.getD "") else existing.slug) →
      parseIntJs idParam = some pid →
      db.projects.find? (fun p => (p.id : Int) == pid) = some existing →
      existing.authorId = u.userId →
      body.technologyIds = none →
      (strTruthy body.title && db.projects.any (fun p =>
        p.slug == slugU && !((p.id : Int) == pid))) = false →
      ∃ p' techs db',
        updateProject db (some u) idParam body = (.ok p' techs, db') ∧
        p' = applyProjectPatch body slugU existing ∧
        db'.projectTechnologies = db.projectTechnologies ∧
        db'.technologies = db.technologies ∧
        db'.projects = db.projects.map (fun p =>
          if (p.id : Int) == pid
          then applyProjectPatch body slugU p else p) ∧
        (∀ q ∈ db.projects, (q.id : Int) ≠ pid → q ∈ db'.projects) ∧
        p'.id = existing.id ∧
        p'.authorId = existing.authorId ∧
        p'.createdAt = existing.createdAt ∧
        (strTruthy body.title = false →
          p'.title = existing.title ∧ p'.slug = existing.slug) ∧
        (∀ t, body.title = some t → t ≠ "" →
          p'.title = t ∧ p'.slug = slugify t) ∧
        (body.description = none →
          p'.description = existing.description) ∧
        (∀ d, body.description = some d → p'.description = d) ∧
        (body.content = none → p'.content = existing.content) ∧
        (∀ c, body.content = some c → p'.content = some c) ∧
        (body.featured = none → p'.featured = existing.featured) ∧
        (∀ b, body.featured = some b → p'.featured = b) ∧
        (body.status = none → p'.status = existing.status) ∧
        (∀ st, body.status = some st → p'.status = st) ∧
        (body.githubUrl = none → p'.githubUrl = existing.githubUrl) ∧
        (∀ s, body.githubUrl = some s → p'.githubUrl = some s) ∧
        (body.demoUrl = none → p'.demoUrl = existing.demoUrl) ∧
        (∀ s, body.demoUrl = some s → p'.demoUrl = some s) ∧
        (body.imageUrl = none → p'.imageUrl = existing.imageUrl) ∧
        (∀ s, body.imageUrl = some s → p'.imageUrl = some s)) := by
  constructor
  · intro hpid hfind hown
    constructor
    · unfold updateProject
      dsimp only
      rw [hpid]
      dsimp only
      rw [hfind]
      dsimp only
      rw [if_pos hown]
    · unfold deleteProject
      dsimp only
      rw [hpid]
      dsimp only
      rw [hfind]
      dsimp only
      rw [if_pos hown]
  · intro slugU hslug hpid hfind hown htech hconf
    have hown' : ¬ existing.authorId ≠ u.userId := by
      intro h; exact h hown
    subst hslug
    refine ⟨applyProjectPatch body (if strTruthy body.title
        then slugify (body.title.getD "") else existing.slug) existing,
      techsOf ⟨db.projects.map (fun p => if (p.id : Int) == pid
          then applyProjectPatch body (if strTruthy body.title
            then slugify (body.title.getD "") else existing.slug) p
          else p),
        db.projectTechnologies, db.technologies⟩ existing.id,
      ⟨db.projects.map (fun p => if (p.id : Int) == pid
          then applyProjectPatch body (if strTruthy body.title
            then slugify (body.title.getD "") else existing.slug) p
          else p),
        db.projectTechnologies, db.technologies⟩,
      ?_, rfl, rfl, rfl, rfl, ?_, ?_⟩
    · unfold updateProject
      dsimp only
      rw [hpid]
      dsimp only
      rw [hfind]
      dsimp only
      rw [if_neg hown']
      try dsimp only
      rw [if_neg (by rw [hconf]; exact Bool.false_ne_true)]
      try dsimp only
      rw [htech]
    · intro q hq hne
      refine List.mem_map.mpr ⟨q, hq, ?_⟩
      simp [hne]
    · obtain ⟨h1, h2, h3, h4, h5, h6, h7, h8, h9, h10, h11, h12, h13,
        h14, h15, h16, h17, h18, h19⟩ :=
        applyProjectPatch_fields body (if strTruthy body.title
          then slugify (body.title.getD "") else existing.slug) existing
      refine ⟨h1, h2, h3, h4, ?_, h6, h7, h8, h9, h10, h11, h12, h13,
        h14, h15, h16, h17, h18, h19⟩
      intro t ht htne
      have hs : strTruthy body.title = true := by simp [strTruthy, ht, htne]
      obtain ⟨ha, hb⟩ := h5 t ht htne
      refine ⟨ha, ?_⟩
      rw [hb, if_pos hs, ht]
      rfl

/-- The stored record after the slug-rewriting counterexample update. -/
def projAlphaRenamed : Project :=
  { projAlpha with title := "New Name", slug := "new-name" }

/-- C2 counterexample: the owner updates project 1 supplying ONLY
`title` — yet the stored record's `slug`, a field not present in the
request body, changes from "alpha-app" to "new-name"; the update does not
change exactly the supplied fields. -/
theorem updateProject_title_rewrites_slug :
    (updateProject projDbFix (some ⟨1, "alice", .USER⟩) "1"
        { emptyUpdateBody with title := some "New Name" }).1 =
      .ok projAlphaRenamed [7] ∧
    projAlpha.slug = "alpha-app" ∧
    projAlphaRenamed.slug = "new-name" := by
  refine ⟨by decide, rfl, rfl⟩

/-- C2 witness: non-owner bob gets the two 403 responses with the table
unchanged; owner alice's description-only update changes the description
and nothing else. -/
theorem project_ownership_and_patch_witness :
    (updateProject projDbFix (some ⟨2, "bob", .USER⟩) "1"
        { emptyUpdateBody with description := some "changed" } =
      (.err 403 "You can only update your own projects", projDbFix)) ∧
    (deleteProject projDbFix (some ⟨2, "bob", .USER⟩) "1" =
      (.err 403 "You can only delete your own projects", projDbFix)) ∧
    ∃ p' techs db',
      updateProject projDbFix (some ⟨1, "alice", .USER⟩) "1"
          { emptyUpdateBody with description := some "changed" } =
        (.ok p' techs, db') ∧
      p'.description = "changed" ∧
      p'.title = projAlpha.title ∧
      p'.slug = projAlpha.slug ∧
      p'.status = projAlpha.status ∧
      db'.projectTechnologies = projDbFix.projectTechnologies := by
  refine ⟨?_, ?_, ?_⟩
  · exact ((project_ownership_and_patch projDbFix ⟨2, "bob", .USER⟩ "1"
      { emptyUpdateBody with description := some "changed" } 1
      projAlpha).1 (by decide) (by decide) (by decide)).1
  · exact ((project_ownership_and_patch projDbFix ⟨2, "bob", .USER⟩ "1"
      { emptyUpdateBody with description := some "changed" } 1
      projAlpha).1 (by decide) (by decide) (by decide)).2
  · obtain ⟨p', techs, db', heq, hpatch, hjoins, htechnols, hproj,
      hframe, hid, hauthor, hcreated, htitleN, htitleS, hdescN, hdescS,
      hcontN, hcontS, hfeatN, hfeatS, hstatN, hstatS, hghN, hghS, hdemN,
      hdemS, himgN, himgS⟩ :=
      (project_ownership_and_patch projDbFix ⟨1, "alice", .USER⟩ "1"
        { emptyUpdateBody with description := some "changed" } 1
        projAlpha).2 "alpha-app" (by decide) (by decide) (by decide)
        (by decide) rfl (by decide)
    exact ⟨p', techs, db', heq, hdescS "changed" rfl,
      (htitleN (by decide)).1, (htitleN (by decide)).2, hstatN rfl,
      hjoins⟩
